import Mathlib

/-!
Verification of the paginated report exporter of the resume-analyzer
front end.  The development shallowly embeds the `exportToPDF` routine:
the analysis record (`ApiResponse`), the jsPDF-like document state
(`LayoutState`: pages of positioned text blocks plus a vertical cursor
and the current font size / font style / text colour), the layout
helpers `addWrappedText` and `checkNewPage`, the section-by-section
content pass, and the second-pass footer stamping.

Two aspects of the original code are external to the embedding and are
taken as parameters: the text-measurement function
`doc.splitTextToSize` (which depends on real font metrics) appears as a
`SplitFun` argument, and JavaScript number-to-string formatting appears
as a `NumFun` argument.  Machine reals are modelled as exact rationals.
-/

namespace ResumeAnalyzer

/-- RGB text colour, as passed to `doc.setTextColor`. -/
structure Color where
  r : Nat
  g : Nat
  b : Nat
  deriving DecidableEq, Repr

/-- Default text colour: `setTextColor(0, 0, 0)`. -/
def black : Color := ⟨0, 0, 0⟩

/-- Affirmative colour `[34, 197, 94]`. -/
def green : Color := ⟨34, 197, 94⟩

/-- Negative colour `[239, 68, 68]`. -/
def red : Color := ⟨239, 68, 68⟩

/-- Footer colour `setTextColor(128, 128, 128)`. -/
def gray : Color := ⟨128, 128, 128⟩

/-- One experience entry of the analysis response. -/
structure ExperienceEntry where
  company : String
  duration : String
  role : String
  responsibilities : List String
  deriving DecidableEq, Repr

/-- One question/answer entry of the analysis response. -/
structure QuestionAnswer where
  question : String
  answer : String
  reason : String
  deriving DecidableEq, Repr

/-- The analysis record consumed by the exporter (interface
`ApiResponse` of the source). -/
structure ApiResponse where
  resumeText : String
  email : String
  phone : String
  experience : List ExperienceEntry
  totalExperienceInYears : ℚ
  summary : String
  strengths : List String
  weaknesses : List String
  suggested_roles : List String
  skill_gaps : List String
  impact : ℚ
  skills_score : ℚ
  overall_score : Option ℚ
  matched : Bool
  questions_answers : List QuestionAnswer
  route : String
  missingSkills : List String
  deriving DecidableEq, Repr

/-- One rendered text run: the list of lines passed to `doc.text`
(one element for unwrapped calls), its position, and the font size,
font style and colour in force when it was drawn. -/
structure Block where
  lines : List String
  x : ℚ
  y : ℚ
  fontSize : ℚ
  fontStyle : String
  color : Color
  deriving DecidableEq, Repr

/-- The pagination-independent part of a block: everything except the
vertical position. -/
structure BlockKey where
  lines : List String
  x : ℚ
  fontSize : ℚ
  fontStyle : String
  color : Color
  deriving DecidableEq, Repr

/-- Key of a block: forget the vertical position. -/
def Block.key (b : Block) : BlockKey :=
  ⟨b.lines, b.x, b.fontSize, b.fontStyle, b.color⟩

/-- The mutable jsPDF/export state: the pages built so far (blocks in
drawing order), the cursor `yPosition`, and the current font size,
font style and text colour. -/
structure LayoutState where
  pages : List (List Block)
  y : ℚ
  fontSize : ℚ
  fontStyle : String
  color : Color
  deriving DecidableEq, Repr

/-- Abstract `doc.splitTextToSize`: font size, text, maximal width to
a list of wrapped lines.  Depends on real font metrics, hence a
parameter. -/
def SplitFun : Type := ℚ → String → ℚ → List String

/-- Abstract JavaScript number formatting (template-literal
interpolation of a number), hence a parameter. -/
def NumFun : Type := ℚ → String

/-- Top margin: `yPosition` starts at 20 and is reset to 20 on a page
break. -/
def topMargin : ℚ := 20

/-- Append a block to the last (current) page. -/
def appendLast : List (List Block) → Block → List (List Block)
  | [], b => [[b]]
  | [p], b => [p ++ [b]]
  | p :: q :: ps, b => p :: appendLast (q :: ps) b

/-- Model of `doc.text`: draw the given lines at the given position
with the current font size, font style and colour, on the current
(last) page. -/
def emit (st : LayoutState) (ls : List String) (x y : ℚ) : LayoutState :=
  ⟨appendLast st.pages ⟨ls, x, y, st.fontSize, st.fontStyle, st.color⟩,
   st.y, st.fontSize, st.fontStyle, st.color⟩

/-- Model of `doc.setFontSize`. -/
def setFontSize (st : LayoutState) (s : ℚ) : LayoutState :=
  ⟨st.pages, st.y, s, st.fontStyle, st.color⟩

/-- Model of `doc.setFont(undefined, style)`. -/
def setFontStyle (st : LayoutState) (s : String) : LayoutState :=
  ⟨st.pages, st.y, st.fontSize, s, st.color⟩

/-- Model of `doc.setTextColor`. -/
def setColor (st : LayoutState) (c : Color) : LayoutState :=
  ⟨st.pages, st.y, st.fontSize, st.fontStyle, c⟩

/-- Replace the cursor `yPosition`. -/
def withY (st : LayoutState) (v : ℚ) : LayoutState :=
  ⟨st.pages, v, st.fontSize, st.fontStyle, st.color⟩

/-- Advance the cursor: `yPosition += d`. -/
def addY (st : LayoutState) (d : ℚ) : LayoutState :=
  withY st (st.y + d)

/-- The helper `checkNewPage(requiredSpace)`: if the cursor plus the
required space runs past `pageHeight - 20`, call `doc.addPage()` and
reset `yPosition` to the top margin; otherwise change nothing. -/
def checkNewPage (pageHeight : ℚ) (requiredSpace : ℚ) (st : LayoutState) : LayoutState :=
  if st.y + requiredSpace > pageHeight - 20 then
    ⟨st.pages ++ [[]], topMargin, st.fontSize, st.fontStyle, st.color⟩
  else st

/-- The helper `addWrappedText(text, x, y, maxWidth, fontSize)`: set
the font size, split the text to the given width, draw the wrapped
lines at `(x, y)`, and return the new cursor position
`y + lines × fontSize × 0.4` alongside the new state. -/
def addWrappedText (split : SplitFun) (st : LayoutState) (text : String)
    (x y maxWidth fontSize : ℚ) : LayoutState × ℚ :=
  let st1 := setFontSize st fontSize
  let ls := split fontSize text maxWidth
  (emit st1 ls x y, y + (ls.length : ℚ) * fontSize * 0.4)

/-- The universal call pattern `yPosition = addWrappedText(text, x,
yPosition, maxWidth, fontSize)`. -/
def addWrappedAt (split : SplitFun) (st : LayoutState) (text : String)
    (x maxWidth fontSize : ℚ) : LayoutState :=
  let r := addWrappedText split st text x st.y maxWidth fontSize
  withY r.1 r.2

/-- Initial jsPDF state: one empty page, cursor at the top margin,
default font size 16, normal style, black text. -/
def initState : LayoutState := ⟨[[]], topMargin, 16, "normal", black⟩

/-- Status-line text of the matched badge. -/
def matchedText (r : ApiResponse) : String :=
  if r.matched then "✓ MATCHED" else "✗ NOT MATCHED"

/-- Status-line colour of the matched badge. -/
def matchedColor (r : ApiResponse) : Color :=
  if r.matched then green else red

/-- Title block: font size 20, bold, "Resume Analysis Report". -/
def titlePart (st : LayoutState) : LayoutState :=
  let st := setFontStyle (setFontSize st 20) "bold"
  let st := emit st ["Resume Analysis Report"] 20 st.y
  addY st 15

/-- Matched badge: font size 12 normal, coloured by match status,
then the colour is reset to black. -/
def matchedPart (r : ApiResponse) (st : LayoutState) : LayoutState :=
  let st := setFontStyle (setFontSize st 12) "normal"
  let st := setColor st (matchedColor r)
  let st := emit st [matchedText r] 20 st.y
  let st := setColor st black
  addY st 15

/-- Score-breakdown section: header then the four score lines. -/
def scorePart (numToStr : NumFun) (pageHeight : ℚ) (r : ApiResponse)
    (st : LayoutState) : LayoutState :=
  let st := checkNewPage pageHeight 60 st
  let st := setFontStyle (setFontSize st 16) "bold"
  let st := emit st ["📊 Score Breakdown"] 20 st.y
  let st := addY st 10
  let st := setFontStyle (setFontSize st 12) "normal"
  let st := emit st ["Overall Score: " ++ numToStr (r.overall_score.getD 0) ++ "/100"] 20 st.y
  let st := addY st 8
  let st := emit st ["Years of Experience: " ++ numToStr r.totalExperienceInYears] 20 st.y
  let st := addY st 8
  let st := emit st ["Impact Score: " ++ numToStr r.impact ++ "/100"] 20 st.y
  let st := addY st 8
  let st := emit st ["Skills Score: " ++ numToStr r.skills_score ++ "/100"] 20 st.y
  addY st 15

/-- Summary section: header then the wrapped summary text. -/
def summaryPart (split : SplitFun) (pageWidth pageHeight : ℚ) (r : ApiResponse)
    (st : LayoutState) : LayoutState :=
  let st := checkNewPage pageHeight 40 st
  let st := setFontStyle (setFontSize st 16) "bold"
  let st := emit st ["👤 Summary"] 20 st.y
  let st := addY st 10
  let st := setFontStyle st "normal"
  let st := addWrappedAt split st r.summary 20 (pageWidth - 40) 11
  addY st 10

/-- Body of the per-item loop of each bulleted list section:
`checkNewPage(10)` then one wrapped bullet, then `yPosition += 2`. -/
def bulletStep (split : SplitFun) (pageWidth pageHeight : ℚ)
    (st : LayoutState) (item : String) : LayoutState :=
  let st := checkNewPage pageHeight 10 st
  let st := addWrappedAt split st ("• " ++ item) 25 (pageWidth - 50) 11
  addY st 2

/-- One bulleted list section (strengths / weaknesses / suggested
roles / skill gaps): a conservative page-break check sized by the item
count, a bold header, then one wrapped block per item. -/
def bulletPart (split : SplitFun) (pageWidth pageHeight : ℚ) (header : String)
    (items : List String) (st : LayoutState) : LayoutState :=
  let st := checkNewPage pageHeight (30 + (items.length : ℚ) * 8) st
  let st := setFontStyle (setFontSize st 16) "bold"
  let st := emit st [header] 20 st.y
  let st := addY st 10
  let st := setFontStyle (setFontSize st 11) "normal"
  let st := items.foldl (bulletStep split pageWidth pageHeight) st
  addY st 8

/-- Model of JavaScript `toLowerCase()`: lower-case every character. -/
def lowerString (s : String) : String := ⟨s.data.map Char.toLower⟩

/-- Model of JavaScript `toUpperCase()`: upper-case every character. -/
def upperString (s : String) : String := ⟨s.data.map Char.toUpper⟩

/-- Glyph of a question/answer status line: affirmative exactly when
the lower-cased answer is the literal "yes". -/
def answerSymbol (a : String) : String :=
  if lowerString a = "yes" then "✓" else "✗"

/-- Colour of a question/answer status line. -/
def answerColor (a : String) : Color :=
  if lowerString a = "yes" then green else red

/-- Body of the question/answer loop for one indexed entry: a bold
wrapped question line, a coloured status line (colour reset to black
right after), and a wrapped reason paragraph. -/
def qaStep (split : SplitFun) (pageWidth pageHeight : ℚ)
    (st : LayoutState) (p : Nat × QuestionAnswer) : LayoutState :=
  let st := checkNewPage pageHeight 25 st
  let st := setFontStyle (setFontSize st 12) "bold"
  let st := addWrappedAt split st ("Q" ++ toString (p.1 + 1) ++ ": " ++ p.2.question)
    20 (pageWidth - 40) 12
  let st := addY st 3
  let st := setFontStyle (setFontSize st 11) "normal"
  let st := setColor st (answerColor p.2.answer)
  let st := emit st [answerSymbol p.2.answer ++ " " ++ upperString p.2.answer] 20 st.y
  let st := setColor st black
  let st := addY st 8
  let st := addWrappedAt split st ("Reason: " ++ p.2.reason) 20 (pageWidth - 40) 11
  addY st 10

/-- Question-analysis section, emitted only when the list is
non-empty. -/
def qaPart (split : SplitFun) (pageWidth pageHeight : ℚ)
    (qas : List QuestionAnswer) (st : LayoutState) : LayoutState :=
  if qas.length > 0 then
    let st := checkNewPage pageHeight 40 st
    let st := setFontStyle (setFontSize st 16) "bold"
    let st := emit st ["🧠 Detailed Analysis"] 20 st.y
    let st := addY st 15
    qas.enum.foldl (qaStep split pageWidth pageHeight) st
  else st

/-- The content pass of `exportToPDF`: the fixed section order
title → matched badge → score breakdown → summary → strengths →
weaknesses → suggested roles → skill gaps → detailed analysis. -/
def contentPass (split : SplitFun) (numToStr : NumFun) (pageWidth pageHeight : ℚ)
    (r : ApiResponse) : LayoutState :=
  let st := initState
  let st := titlePart st
  let st := matchedPart r st
  let st := scorePart numToStr pageHeight r st
  let st := summaryPart split pageWidth pageHeight r st
  let st := bulletPart split pageWidth pageHeight "📈 Strengths" r.strengths st
  let st := bulletPart split pageWidth pageHeight "⚠️ Areas for Improvement" r.weaknesses st
  let st := bulletPart split pageWidth pageHeight "💼 Suggested Roles" r.suggested_roles st
  let st := bulletPart split pageWidth pageHeight "🎯 Skill Gaps & Development Areas" r.skill_gaps st
  qaPart split pageWidth pageHeight r.questions_answers st

/-- Footer text of page `i` of `n`. -/
def footerText (i n : Nat) : String :=
  "Generated by Resume Analyzer - Page " ++ toString i ++ " of " ++ toString n

/-- Footer loop body: pages from index `i` (0-based) onward each
receive the page-number footer at `x = 20` and the date at
`x = pageWidth - 40`, both at `pageHeight - 10`, font size 8, gray. -/
def stampPages (date : String) (pageWidth pageHeight : ℚ) (style : String)
    (n : Nat) : Nat → List (List Block) → List (List Block)
  | _, [] => []
  | i, p :: ps =>
      (p ++ [⟨[footerText (i + 1) n], 20, pageHeight - 10, 8, style, gray⟩,
             ⟨[date], pageWidth - 40, pageHeight - 10, 8, style, gray⟩]) ::
        stampPages date pageWidth pageHeight style n (i + 1) ps

/-- The second pass of `exportToPDF`: read `getNumberOfPages`, then
visit every page and stamp both footer runs. -/
def stampFooters (date : String) (pageWidth pageHeight : ℚ)
    (st : LayoutState) : List (List Block) :=
  stampPages date pageWidth pageHeight st.fontStyle st.pages.length 0 st.pages

/-- The whole document produced for one analysis record: content pass
then footer pass. -/
def renderDoc (split : SplitFun) (numToStr : NumFun) (date : String)
    (pageWidth pageHeight : ℚ) (r : ApiResponse) : List (List Block) :=
  stampFooters date pageWidth pageHeight (contentPass split numToStr pageWidth pageHeight r)

/-- The exported document of `exportToPDF`: `if (!analysis) return;`
yields no document at all; otherwise the rendered document. -/
def exportToPDF (split : SplitFun) (numToStr : NumFun) (date : String)
    (pageWidth pageHeight : ℚ) (analysis : Option ApiResponse) :
    Option (List (List Block)) :=
  match analysis with
  | none => none
  | some r => some (renderDoc split numToStr date pageWidth pageHeight r)

/-! ### Pagination-independent traces

The sequence of blocks drawn by the content pass, with vertical
positions forgotten, admits a closed form.  Everything below builds up
to `contentPass_trace`. -/

/-- All blocks of a state in drawing order, up to vertical position. -/
def emittedKeys (st : LayoutState) : List BlockKey :=
  st.pages.flatten.map Block.key

/-- Key of a bold section header. -/
def headerKey (h : String) : BlockKey := ⟨[h], 20, 16, "bold", black⟩

/-- Key of the title block. -/
def titleKey : BlockKey := ⟨["Resume Analysis Report"], 20, 20, "bold", black⟩

/-- Key of the matched badge. -/
def matchedKey (r : ApiResponse) : BlockKey :=
  ⟨[matchedText r], 20, 12, "normal", matchedColor r⟩

/-- Keys of the four score lines. -/
def scoreKeys (numToStr : NumFun) (r : ApiResponse) : List BlockKey :=
  [⟨["Overall Score: " ++ numToStr (r.overall_score.getD 0) ++ "/100"], 20, 12, "normal", black⟩,
   ⟨["Years of Experience: " ++ numToStr r.totalExperienceInYears], 20, 12, "normal", black⟩,
   ⟨["Impact Score: " ++ numToStr r.impact ++ "/100"], 20, 12, "normal", black⟩,
   ⟨["Skills Score: " ++ numToStr r.skills_score ++ "/100"], 20, 12, "normal", black⟩]

/-- Key of the wrapped summary block. -/
def summaryKey (split : SplitFun) (pageWidth : ℚ) (r : ApiResponse) : BlockKey :=
  ⟨split 11 r.summary (pageWidth - 40), 20, 11, "normal", black⟩

/-- Key of one bulleted list item. -/
def bulletKey (split : SplitFun) (pageWidth : ℚ) (s : String) : BlockKey :=
  ⟨split 11 ("• " ++ s) (pageWidth - 50), 25, 11, "normal", black⟩

/-- Key of one indexed question line. -/
def questionKey (split : SplitFun) (pageWidth : ℚ) (p : Nat × QuestionAnswer) : BlockKey :=
  ⟨split 12 ("Q" ++ toString (p.1 + 1) ++ ": " ++ p.2.question) (pageWidth - 40),
   20, 12, "bold", black⟩

/-- Key of one coloured answer status line. -/
def answerKey (qa : QuestionAnswer) : BlockKey :=
  ⟨[answerSymbol qa.answer ++ " " ++ upperString qa.answer], 20, 11, "normal",
   answerColor qa.answer⟩

/-- Key of one wrapped reason paragraph. -/
def reasonKey (split : SplitFun) (pageWidth : ℚ) (qa : QuestionAnswer) : BlockKey :=
  ⟨split 11 ("Reason: " ++ qa.reason) (pageWidth - 40), 20, 11, "normal", black⟩

/-- The three keys of one indexed question/answer entry. -/
def qaKeys (split : SplitFun) (pageWidth : ℚ) (p : Nat × QuestionAnswer) : List BlockKey :=
  [questionKey split pageWidth p, answerKey p.2, reasonKey split pageWidth p.2]

/-- Keys of the whole question-analysis section. -/
def qaTraceKeys (split : SplitFun) (pageWidth : ℚ) (qas : List QuestionAnswer) :
    List BlockKey :=
  if qas.length > 0 then
    headerKey "🧠 Detailed Analysis" :: (qas.enum.map (qaKeys split pageWidth)).flatten
  else []

/-- Closed form of the whole content-pass trace. -/
def traceKeys (split : SplitFun) (numToStr : NumFun) (pageWidth : ℚ)
    (r : ApiResponse) : List BlockKey :=
  [titleKey, matchedKey r, headerKey "📊 Score Breakdown"] ++ scoreKeys numToStr r ++
  [headerKey "👤 Summary", summaryKey split pageWidth r] ++
  (headerKey "📈 Strengths" :: r.strengths.map (bulletKey split pageWidth)) ++
  (headerKey "⚠️ Areas for Improvement" :: r.weaknesses.map (bulletKey split pageWidth)) ++
  (headerKey "💼 Suggested Roles" :: r.suggested_roles.map (bulletKey split pageWidth)) ++
  (headerKey "🎯 Skill Gaps & Development Areas" :: r.skill_gaps.map (bulletKey split pageWidth)) ++
  qaTraceKeys split pageWidth r.questions_answers

theorem flatten_appendLast (ps : List (List Block)) (b : Block) :
    (appendLast ps b).flatten = ps.flatten ++ [b] := by
  induction ps with
  | nil => simp [appendLast]
  | cons p ps ih =>
    cases ps with
    | nil => simp [appendLast]
    | cons q qs => simp [appendLast, ih]

@[simp] theorem emit_fontSize (st : LayoutState) (ls : List String) (x y : ℚ) :
    (emit st ls x y).fontSize = st.fontSize := rfl

@[simp] theorem emit_fontStyle (st : LayoutState) (ls : List String) (x y : ℚ) :
    (emit st ls x y).fontStyle = st.fontStyle := rfl

@[simp] theorem emit_color (st : LayoutState) (ls : List String) (x y : ℚ) :
    (emit st ls x y).color = st.color := rfl

@[simp] theorem setFontSize_fontSize (st : LayoutState) (s : ℚ) :
    (setFontSize st s).fontSize = s := rfl

@[simp] theorem setFontSize_fontStyle (st : LayoutState) (s : ℚ) :
    (setFontSize st s).fontStyle = st.fontStyle := rfl

@[simp] theorem setFontSize_color (st : LayoutState) (s : ℚ) :
    (setFontSize st s).color = st.color := rfl

@[simp] theorem setFontStyle_fontSize (st : LayoutState) (s : String) :
    (setFontStyle st s).fontSize = st.fontSize := rfl

@[simp] theorem setFontStyle_fontStyle (st : LayoutState) (s : String) :
    (setFontStyle st s).fontStyle = s := rfl

@[simp] theorem setFontStyle_color (st : LayoutState) (s : String) :
    (setFontStyle st s).color = st.color := rfl

@[simp] theorem setColor_fontSize (st : LayoutState) (c : Color) :
    (setColor st c).fontSize = st.fontSize := rfl

@[simp] theorem setColor_fontStyle (st : LayoutState) (c : Color) :
    (setColor st c).fontStyle = st.fontStyle := rfl

@[simp] theorem setColor_color (st : LayoutState) (c : Color) :
    (setColor st c).color = c := rfl

@[simp] theorem withY_fontSize (st : LayoutState) (v : ℚ) :
    (withY st v).fontSize = st.fontSize := rfl

@[simp] theorem withY_fontStyle (st : LayoutState) (v : ℚ) :
    (withY st v).fontStyle = st.fontStyle := rfl

@[simp] theorem withY_color (st : LayoutState) (v : ℚ) :
    (withY st v).color = st.color := rfl

@[simp] theorem addY_fontSize (st : LayoutState) (d : ℚ) :
    (addY st d).fontSize = st.fontSize := rfl

@[simp] theorem addY_fontStyle (st : LayoutState) (d : ℚ) :
    (addY st d).fontStyle = st.fontStyle := rfl

@[simp] theorem addY_color (st : LayoutState) (d : ℚ) :
    (addY st d).color = st.color := rfl

@[simp] theorem checkNewPage_fontSize (pH q : ℚ) (st : LayoutState) :
    (checkNewPage pH q st).fontSize = st.fontSize := by
  unfold checkNewPage; split <;> rfl

@[simp] theorem checkNewPage_fontStyle (pH q : ℚ) (st : LayoutState) :
    (checkNewPage pH q st).fontStyle = st.fontStyle := by
  unfold checkNewPage; split <;> rfl

@[simp] theorem checkNewPage_color (pH q : ℚ) (st : LayoutState) :
    (checkNewPage pH q st).color = st.color := by
  unfold checkNewPage; split <;> rfl

@[simp] theorem addWrappedAt_fontSize (split : SplitFun) (st : LayoutState)
    (t : String) (x mW fs : ℚ) :
    (addWrappedAt split st t x mW fs).fontSize = fs := rfl

@[simp] theorem addWrappedAt_fontStyle (split : SplitFun) (st : LayoutState)
    (t : String) (x mW fs : ℚ) :
    (addWrappedAt split st t x mW fs).fontStyle = st.fontStyle := rfl

@[simp] theorem addWrappedAt_color (split : SplitFun) (st : LayoutState)
    (t : String) (x mW fs : ℚ) :
    (addWrappedAt split st t x mW fs).color = st.color := rfl

@[simp] theorem emittedKeys_emit (st : LayoutState) (ls : List String) (x y : ℚ) :
    emittedKeys (emit st ls x y) =
      emittedKeys st ++ [⟨ls, x, st.fontSize, st.fontStyle, st.color⟩] := by
  simp [emittedKeys, emit, flatten_appendLast, Block.key]

@[simp] theorem emittedKeys_setFontSize (st : LayoutState) (s : ℚ) :
    emittedKeys (setFontSize st s) = emittedKeys st := rfl

@[simp] theorem emittedKeys_setFontStyle (st : LayoutState) (s : String) :
    emittedKeys (setFontStyle st s) = emittedKeys st := rfl

@[simp] theorem emittedKeys_setColor (st : LayoutState) (c : Color) :
    emittedKeys (setColor st c) = emittedKeys st := rfl

@[simp] theorem emittedKeys_withY (st : LayoutState) (v : ℚ) :
    emittedKeys (withY st v) = emittedKeys st := rfl

@[simp] theorem emittedKeys_addY (st : LayoutState) (d : ℚ) :
    emittedKeys (addY st d) = emittedKeys st := rfl

@[simp] theorem emittedKeys_checkNewPage (pH q : ℚ) (st : LayoutState) :
    emittedKeys (checkNewPage pH q st) = emittedKeys st := by
  unfold checkNewPage; split
  · simp [emittedKeys]
  · rfl

@[simp] theorem emittedKeys_addWrappedAt (split : SplitFun) (st : LayoutState)
    (t : String) (x mW fs : ℚ) :
    emittedKeys (addWrappedAt split st t x mW fs) =
      emittedKeys st ++ [⟨split fs t mW, x, fs, st.fontStyle, st.color⟩] := by
  simp [addWrappedAt, addWrappedText]

@[simp] theorem initState_color : initState.color = black := rfl

theorem bulletStep_fontStyle (split : SplitFun) (pW pH : ℚ) (st : LayoutState) (a : String) :
    (bulletStep split pW pH st a).fontStyle = st.fontStyle := by
  simp [bulletStep]

theorem bulletStep_color (split : SplitFun) (pW pH : ℚ) (st : LayoutState) (a : String) :
    (bulletStep split pW pH st a).color = st.color := by
  simp [bulletStep]

theorem bulletFold_color (split : SplitFun) (pW pH : ℚ) (l : List String) :
    ∀ st : LayoutState, (l.foldl (bulletStep split pW pH) st).color = st.color := by
  induction l with
  | nil => intro st; rfl
  | cons a l ih => intro st; rw [List.foldl_cons, ih, bulletStep_color]

theorem emittedKeys_bulletFold (split : SplitFun) (pW pH : ℚ) (l : List String) :
    ∀ st : LayoutState,
      emittedKeys (l.foldl (bulletStep split pW pH) st) =
        emittedKeys st ++
          l.map (fun s => ⟨split 11 ("• " ++ s) (pW - 50), 25, 11, st.fontStyle, st.color⟩) := by
  induction l with
  | nil => intro st; simp
  | cons a l ih =>
    intro st
    rw [List.foldl_cons, ih, bulletStep_fontStyle, bulletStep_color]
    simp [bulletStep]

theorem emittedKeys_titlePart (st : LayoutState) (hc : st.color = black) :
    emittedKeys (titlePart st) = emittedKeys st ++ [titleKey] := by
  simp [titlePart, titleKey, hc]

theorem titlePart_color (st : LayoutState) : (titlePart st).color = st.color := by
  simp [titlePart]

theorem emittedKeys_matchedPart (r : ApiResponse) (st : LayoutState) :
    emittedKeys (matchedPart r st) = emittedKeys st ++ [matchedKey r] := by
  simp [matchedPart, matchedKey]

theorem matchedPart_color (r : ApiResponse) (st : LayoutState) :
    (matchedPart r st).color = black := by
  simp [matchedPart]

theorem emittedKeys_scorePart (numToStr : NumFun) (pH : ℚ) (r : ApiResponse)
    (st : LayoutState) (hc : st.color = black) :
    emittedKeys (scorePart numToStr pH r st) =
      emittedKeys st ++ headerKey "📊 Score Breakdown" :: scoreKeys numToStr r := by
  simp [scorePart, headerKey, scoreKeys, hc]

theorem scorePart_color (numToStr : NumFun) (pH : ℚ) (r : ApiResponse) (st : LayoutState) :
    (scorePart numToStr pH r st).color = st.color := by
  simp [scorePart]

theorem emittedKeys_summaryPart (split : SplitFun) (pW pH : ℚ) (r : ApiResponse)
    (st : LayoutState) (hc : st.color = black) :
    emittedKeys (summaryPart split pW pH r st) =
      emittedKeys st ++ [headerKey "👤 Summary", summaryKey split pW r] := by
  simp [summaryPart, headerKey, summaryKey, hc]

theorem summaryPart_color (split : SplitFun) (pW pH : ℚ) (r : ApiResponse) (st : LayoutState) :
    (summaryPart split pW pH r st).color = st.color := by
  simp [summaryPart]

theorem emittedKeys_bulletPart (split : SplitFun) (pW pH : ℚ) (h : String)
    (items : List String) (st : LayoutState) (hc : st.color = black) :
    emittedKeys (bulletPart split pW pH h items st) =
      emittedKeys st ++ headerKey h :: items.map (bulletKey split pW) := by
  simp [bulletPart, emittedKeys_bulletFold, headerKey, bulletKey, hc]

theorem bulletPart_color (split : SplitFun) (pW pH : ℚ) (h : String)
    (items : List String) (st : LayoutState) :
    (bulletPart split pW pH h items st).color = st.color := by
  simp [bulletPart, bulletFold_color]

theorem qaStep_color (split : SplitFun) (pW pH : ℚ) (st : LayoutState)
    (p : Nat × QuestionAnswer) : (qaStep split pW pH st p).color = black := by
  simp [qaStep]

theorem emittedKeys_qaStep (split : SplitFun) (pW pH : ℚ) (st : LayoutState)
    (p : Nat × QuestionAnswer) (hc : st.color = black) :
    emittedKeys (qaStep split pW pH st p) = emittedKeys st ++ qaKeys split pW p := by
  simp [qaStep, qaKeys, questionKey, answerKey, reasonKey, hc]

theorem emittedKeys_qaFold (split : SplitFun) (pW pH : ℚ) (l : List (Nat × QuestionAnswer)) :
    ∀ st : LayoutState, st.color = black →
      emittedKeys (l.foldl (qaStep split pW pH) st) =
        emittedKeys st ++ (l.map (qaKeys split pW)).flatten := by
  induction l with
  | nil => intro st _; simp
  | cons a l ih =>
    intro st hc
    rw [List.foldl_cons, ih (qaStep split pW pH st a) (qaStep_color split pW pH st a),
      emittedKeys_qaStep split pW pH st a hc]
    simp

theorem emittedKeys_qaPart (split : SplitFun) (pW pH : ℚ) (qas : List QuestionAnswer)
    (st : LayoutState) (hc : st.color = black) :
    emittedKeys (qaPart split pW pH qas st) =
      emittedKeys st ++ qaTraceKeys split pW qas := by
  unfold qaPart qaTraceKeys
  split
  · rw [emittedKeys_qaFold]
    · simp [headerKey, hc]
    · simp [hc]
  · simp

/-- Master trace lemma: the content pass draws exactly the closed-form
key sequence, in order. -/
theorem contentPass_trace (split : SplitFun) (numToStr : NumFun) (pW pH : ℚ)
    (r : ApiResponse) :
    emittedKeys (contentPass split numToStr pW pH r) =
      traceKeys split numToStr pW r := by
  unfold contentPass
  have c1 : (titlePart initState).color = black := by
    rw [titlePart_color]; rfl
  have c2 : (matchedPart r (titlePart initState)).color = black :=
    matchedPart_color _ _
  have c3 : ((scorePart numToStr pH r (matchedPart r (titlePart initState)))).color = black := by
    rw [scorePart_color]; exact c2
  have c4 : (summaryPart split pW pH r
      (scorePart numToStr pH r (matchedPart r (titlePart initState)))).color = black := by
    rw [summaryPart_color]; exact c3
  rw [emittedKeys_qaPart _ _ _ _ _ (by
        rw [bulletPart_color, bulletPart_color, bulletPart_color, bulletPart_color]; exact c4),
    emittedKeys_bulletPart _ _ _ _ _ _ (by
        rw [bulletPart_color, bulletPart_color, bulletPart_color]; exact c4),
    emittedKeys_bulletPart _ _ _ _ _ _ (by
        rw [bulletPart_color, bulletPart_color]; exact c4),
    emittedKeys_bulletPart _ _ _ _ _ _ (by rw [bulletPart_color]; exact c4),
    emittedKeys_bulletPart _ _ _ _ _ _ c4,
    emittedKeys_summaryPart _ _ _ _ _ c3,
    emittedKeys_scorePart _ _ _ _ c2,
    emittedKeys_matchedPart,
    emittedKeys_titlePart _ (by rfl)]
  simp [traceKeys, emittedKeys, initState]

/-! ### Footer-pass lemmas -/

theorem stampPages_length (d : String) (pW pH : ℚ) (sty : String) (n : Nat) :
    ∀ (ps : List (List Block)) (i : Nat),
      (stampPages d pW pH sty n i ps).length = ps.length := by
  intro ps
  induction ps with
  | nil => intro i; rfl
  | cons p ps ih => intro i; simp [stampPages, ih]

theorem stampPages_get (d : String) (pW pH : ℚ) (sty : String) (n : Nat) :
    ∀ (ps : List (List Block)) (i j : Nat)
      (hj : j < (stampPages d pW pH sty n i ps).length),
      ∃ hj2 : j < ps.length,
        (stampPages d pW pH sty n i ps).get ⟨j, hj⟩ =
          ps.get ⟨j, hj2⟩ ++
            [⟨[footerText (i + j + 1) n], 20, pH - 10, 8, sty, gray⟩,
             ⟨[d], pW - 40, pH - 10, 8, sty, gray⟩] := by
  intro ps
  induction ps with
  | nil => intro i j hj; simp [stampPages] at hj
  | cons p ps ih =>
    intro i j hj
    cases j with
    | zero => exact ⟨Nat.succ_pos _, rfl⟩
    | succ j =>
      have hj1 : j < (stampPages d pW pH sty n (i + 1) ps).length := by
        have := hj
        simp only [stampPages, List.length_cons] at this
        omega
      obtain ⟨h2, he⟩ := ih (i + 1) j hj1
      refine ⟨Nat.succ_lt_succ h2, ?_⟩
      have harith : i + 1 + j + 1 = i + (j + 1) + 1 := by omega
      have : (stampPages d pW pH sty n i (p :: ps)).get ⟨j + 1, hj⟩ =
          (stampPages d pW pH sty n (i + 1) ps).get ⟨j, hj1⟩ := rfl
      rw [this, he, harith]
      rfl

theorem mem_stampPages (d : String) (pW pH : ℚ) (sty : String) (n : Nat) (b : Block) :
    ∀ (ps : List (List Block)) (i : Nat),
      (∃ q ∈ ps, b ∈ q) →
      ∃ pg ∈ stampPages d pW pH sty n i ps, b ∈ pg := by
  intro ps
  induction ps with
  | nil => intro i h; simp at h
  | cons p ps ih =>
    intro i h
    obtain ⟨q, hq, hb⟩ := h
    rcases List.mem_cons.mp hq with hq | hq
    · subst hq
      exact ⟨_, List.mem_cons_self _ _, List.mem_append_left _ hb⟩
    · obtain ⟨pg, hpg, hbpg⟩ := ih (i + 1) ⟨q, hq, hb⟩
      exact ⟨pg, List.mem_cons_of_mem _ hpg, hbpg⟩

/-- A key in the emitted trace comes from a block on some page. -/
theorem mem_pages_of_key (k : BlockKey) (st : LayoutState)
    (hk : k ∈ emittedKeys st) : ∃ p ∈ st.pages, ∃ b ∈ p, b.key = k := by
  unfold emittedKeys at hk
  obtain ⟨b, hb, he⟩ := List.mem_map.mp hk
  obtain ⟨p, hp, hbp⟩ := List.mem_flatten.mp hb
  exact ⟨p, hp, b, hbp, he⟩

/-- A complete wrapped run with the given lines occurs on some page of
the document. -/
def hasBlockLines (doc : List (List Block)) (ls : List String) : Prop :=
  ∃ pg ∈ doc, ∃ b ∈ pg, b.lines = ls

/-- Any key of the content-pass trace yields a whole block on a single
page of the finished document. -/
theorem hasBlockLines_renderDoc (split : SplitFun) (numToStr : NumFun) (date : String)
    (pW pH : ℚ) (r : ApiResponse) (k : BlockKey)
    (hk : k ∈ traceKeys split numToStr pW r) :
    hasBlockLines (renderDoc split numToStr date pW pH r) k.lines := by
  rw [← contentPass_trace split numToStr pW pH r] at hk
  obtain ⟨p, hp, b, hbp, hbk⟩ := mem_pages_of_key k _ hk
  obtain ⟨pg, hpg, hbpg⟩ :=
    mem_stampPages date pW pH (contentPass split numToStr pW pH r).fontStyle
      (contentPass split numToStr pW pH r).pages.length b
      (contentPass split numToStr pW pH r).pages 0 ⟨p, hp, hbp⟩
  refine ⟨pg, hpg, b, hbpg, ?_⟩
  rw [← hbk]
  rfl

/-! ### Sample inputs for the witnesses -/

/-- Sample text-measurement function: no wrapping. -/
def wSplit : SplitFun := fun _ t _ => [t]

/-- Sample number formatting. -/
def wNum : NumFun := fun q => toString q.num

/-- Sample affirmative question/answer entry. -/
def wQA1 : QuestionAnswer :=
  ⟨"Does the candidate have cloud experience?", "yes", "AWS and GCP throughout"⟩

/-- Sample mixed-case negative question/answer entry. -/
def wQA2 : QuestionAnswer :=
  ⟨"Does the candidate have leadership experience?", "No", "Not mentioned"⟩

/-- Sample analysis record, shaped like the demo fallback data. -/
def wReport : ApiResponse :=
  ⟨"Sample resume text...", "a@b.c", "+1 555", [],
   (69 : ℚ) / 10, "Versatile software engineer.",
   ["Strong full-stack expertise", "Cloud proficiency"],
   ["Short tenure"],
   ["Senior Full-Stack Developer"],
   ["Advanced DevOps tools"],
   80, 85, some 82, true,
   [wQA1, wQA2],
   "senior", []⟩

/-! ### The page list is never empty -/

theorem appendLast_ne_nil (ps : List (List Block)) (b : Block) :
    appendLast ps b ≠ [] := by
  cases ps with
  | nil => simp [appendLast]
  | cons p ps => cases ps <;> simp [appendLast]

theorem emit_pages_ne_nil (st : LayoutState) (ls : List String) (x y : ℚ) :
    (emit st ls x y).pages ≠ [] :=
  appendLast_ne_nil _ _

theorem addWrappedAt_pages_ne_nil (split : SplitFun) (st : LayoutState)
    (t : String) (x mW fs : ℚ) :
    (addWrappedAt split st t x mW fs).pages ≠ [] :=
  appendLast_ne_nil _ _

theorem checkNewPage_pages_ne_nil (pH q : ℚ) (st : LayoutState)
    (h : st.pages ≠ []) : (checkNewPage pH q st).pages ≠ [] := by
  unfold checkNewPage
  split
  · simp
  · exact h

theorem bulletStep_pages_ne_nil (split : SplitFun) (pW pH : ℚ) (st : LayoutState)
    (a : String) : (bulletStep split pW pH st a).pages ≠ [] :=
  appendLast_ne_nil _ _

theorem bulletFold_pages_ne_nil (split : SplitFun) (pW pH : ℚ) (l : List String) :
    ∀ st : LayoutState, st.pages ≠ [] →
      (l.foldl (bulletStep split pW pH) st).pages ≠ [] := by
  induction l with
  | nil => intro st h; exact h
  | cons a l ih =>
    intro st _
    exact ih _ (bulletStep_pages_ne_nil split pW pH st a)

theorem qaStep_pages_ne_nil (split : SplitFun) (pW pH : ℚ) (st : LayoutState)
    (p : Nat × QuestionAnswer) : (qaStep split pW pH st p).pages ≠ [] :=
  appendLast_ne_nil _ _

theorem qaFold_pages_ne_nil (split : SplitFun) (pW pH : ℚ)
    (l : List (Nat × QuestionAnswer)) :
    ∀ st : LayoutState, st.pages ≠ [] →
      (l.foldl (qaStep split pW pH) st).pages ≠ [] := by
  induction l with
  | nil => intro st h; exact h
  | cons a l ih =>
    intro st _
    exact ih _ (qaStep_pages_ne_nil split pW pH st a)

theorem contentPass_pages_ne_nil (split : SplitFun) (numToStr : NumFun)
    (pW pH : ℚ) (r : ApiResponse) :
    (contentPass split numToStr pW pH r).pages ≠ [] := by
  unfold contentPass qaPart
  split
  · apply qaFold_pages_ne_nil
    exact appendLast_ne_nil _ _
  · apply bulletFold_pages_ne_nil
    exact appendLast_ne_nil _ _

theorem renderDoc_length_pos (split : SplitFun) (numToStr : NumFun) (date : String)
    (pW pH : ℚ) (r : ApiResponse) :
    0 < (renderDoc split numToStr date pW pH r).length := by
  have h := stampPages_length date pW pH
    (contentPass split numToStr pW pH r).fontStyle
    (contentPass split numToStr pW pH r).pages.length
    (contentPass split numToStr pW pH r).pages 0
  have h2 := contentPass_pages_ne_nil split numToStr pW pH r
  have : (renderDoc split numToStr date pW pH r).length =
      (contentPass split numToStr pW pH r).pages.length := h
  rw [this]
  exact List.length_pos.mpr h2

/-! ### Claims -/

/-- C1: for every produced document, the footers are stamped in a
second pass over the content pages: with N the number of pages the
content pass produced, page i (0-based here, so labelled i+1) is
exactly content page i followed by a footer block whose text reads
"Page i+1 of N" (prefixed by the generator tag) at the left position
and the current date block at the right position `pageWidth - 40`,
both at the fixed height `pageHeight - 10`; and the document's actual
page count equals N. -/
theorem footers_pageI_of_N (split : SplitFun) (numToStr : NumFun) (date : String)
    (pW pH : ℚ) (r : ApiResponse) (i : Nat)
    (hi : i < (renderDoc split numToStr date pW pH r).length) :
    (renderDoc split numToStr date pW pH r).length =
      (contentPass split numToStr pW pH r).pages.length ∧
    ∃ hp : i < (contentPass split numToStr pW pH r).pages.length,
      (renderDoc split numToStr date pW pH r).get ⟨i, hi⟩ =
        (contentPass split numToStr pW pH r).pages.get ⟨i, hp⟩ ++
          [⟨[footerText (i + 1) ((contentPass split numToStr pW pH r).pages.length)],
              20, pH - 10, 8, (contentPass split numToStr pW pH r).fontStyle, gray⟩,
           ⟨[date], pW - 40, pH - 10, 8,
              (contentPass split numToStr pW pH r).fontStyle, gray⟩] ∧
      footerText (i + 1) ((contentPass split numToStr pW pH r).pages.length) =
        "Generated by Resume Analyzer - " ++
          ("Page " ++ toString (i + 1) ++ " of " ++
            toString ((contentPass split numToStr pW pH r).pages.length)) := by
  have hlen : (renderDoc split numToStr date pW pH r).length =
      (contentPass split numToStr pW pH r).pages.length :=
    stampPages_length date pW pH _ _ _ 0
  refine ⟨hlen, ?_⟩
  obtain ⟨hp, hget⟩ := stampPages_get date pW pH
    (contentPass split numToStr pW pH r).fontStyle
    (contentPass split numToStr pW pH r).pages.length
    (contentPass split numToStr pW pH r).pages 0 i hi
  refine ⟨hp, ?_⟩
  constructor
  · have h0 : 0 + i + 1 = i + 1 := by omega
    rw [h0] at hget
    exact hget
  · have hpre : "Generated by Resume Analyzer - Page " =
        "Generated by Resume Analyzer - " ++ "Page " := by decide
    simp only [footerText, hpre, String.append_assoc]

/-- Witness for C1 at a concrete report, date and A4-like page size. -/
theorem footers_pageI_of_N_witness :
    (renderDoc wSplit wNum "2026-10-11" 210 297 wReport).length =
      (contentPass wSplit wNum 210 297 wReport).pages.length :=
  (footers_pageI_of_N wSplit wNum "2026-10-11" 210 297 wReport 0
    (renderDoc_length_pos wSplit wNum "2026-10-11" 210 297 wReport)).1

/-- C4: before a block is emitted, if the remaining vertical space on
the page (up to the bottom margin of 20) is smaller than the estimated
requirement, a new empty page is appended and the cursor is reset to
the top margin — the same vertical position at which page 1 starts —
leaving font size, style and colour untouched; otherwise the check
changes nothing at all. -/
theorem checkNewPage_spec (pH req : ℚ) (st : LayoutState) :
    (pH - 20 - st.y < req →
      checkNewPage pH req st =
        ⟨st.pages ++ [[]], topMargin, st.fontSize, st.fontStyle, st.color⟩ ∧
      topMargin = initState.y) ∧
    (¬ pH - 20 - st.y < req → checkNewPage pH req st = st) := by
  constructor
  · intro h
    refine ⟨?_, rfl⟩
    unfold checkNewPage
    rw [if_pos (by linarith)]
  · intro h
    unfold checkNewPage
    rw [if_neg (by intro hlt; exact h (by linarith))]

/-- Witness for C4: a break fires near the bottom of a 297-high page
and does not fire in the middle. -/
theorem checkNewPage_spec_witness :
    checkNewPage 297 10 ⟨[[]], 280, 11, "normal", black⟩ =
      ⟨[[], []], topMargin, 11, "normal", black⟩ ∧
    checkNewPage 297 10 ⟨[[]], 100, 11, "normal", black⟩ =
      ⟨[[]], 100, 11, "normal", black⟩ := by
  constructor
  · exact ((checkNewPage_spec 297 10 ⟨[[]], 280, 11, "normal", black⟩).1 (by norm_num)).1
  · exact (checkNewPage_spec 297 10 ⟨[[]], 100, 11, "normal", black⟩).2 (by norm_num)

/-- C6: wrapping a text that splits into k lines at font size
`fontSize` advances the returned cursor by exactly
k × fontSize × 0.4, both for the raw helper and for the
assign-back call pattern used at every call site. -/
theorem addWrappedText_advance (split : SplitFun) (st : LayoutState) (t : String)
    (x y mW fs : ℚ) :
    (addWrappedText split st t x y mW fs).2 =
      y + ((split fs t mW).length : ℚ) * fs * 0.4 ∧
    (addWrappedAt split st t x mW fs).y =
      st.y + ((split fs t mW).length : ℚ) * fs * 0.4 :=
  ⟨rfl, rfl⟩

/-- C9: exporting with no analysis available produces nothing and
raises nothing: it is a total no-op. -/
theorem exportToPDF_none (split : SplitFun) (numToStr : NumFun) (date : String)
    (pW pH : ℚ) :
    exportToPDF split numToStr date pW pH none = none := rfl

/-! ### Shape predicates on block keys

Bulleted list items are the only blocks drawn at `x = 25`; question
lines are the only bold font-size-12 blocks; answer status lines are
the only non-black font-size-11 blocks; the matched badge and the
answer status lines are the only non-black blocks at all. -/

/-- Bullet list items: the only blocks at `x = 25`. -/
def isBulletB (k : BlockKey) : Bool := decide (k.x = 25)

/-- Question lines: the only bold font-size-12 blocks. -/
def isQuestionB (k : BlockKey) : Bool :=
  decide (k.fontSize = 12 ∧ k.fontStyle = "bold")

/-- Answer status lines: the only non-black font-size-11 blocks. -/
def isAnswerB (k : BlockKey) : Bool :=
  decide (k.fontSize = 11 ∧ k.color ≠ black)

/-- Any block drawn in a colour other than the default black. -/
def isColoredB (k : BlockKey) : Bool := decide (k.color ≠ black)

/-- Selection of the keys matching a shape predicate, in order. -/
def selectKeys (P : BlockKey → Bool) : List BlockKey → List BlockKey
  | [] => []
  | k :: ks => if P k then k :: selectKeys P ks else selectKeys P ks

@[simp] theorem isBulletB_mk (ls : List String) (x fs : ℚ) (sty : String) (c : Color) :
    isBulletB ⟨ls, x, fs, sty, c⟩ = decide (x = 25) := rfl

@[simp] theorem isQuestionB_mk (ls : List String) (x fs : ℚ) (sty : String) (c : Color) :
    isQuestionB ⟨ls, x, fs, sty, c⟩ = decide (fs = 12 ∧ sty = "bold") := rfl

@[simp] theorem isAnswerB_mk (ls : List String) (x fs : ℚ) (sty : String) (c : Color) :
    isAnswerB ⟨ls, x, fs, sty, c⟩ = decide (fs = 11 ∧ c ≠ black) := rfl

@[simp] theorem isColoredB_mk (ls : List String) (x fs : ℚ) (sty : String) (c : Color) :
    isColoredB ⟨ls, x, fs, sty, c⟩ = decide (c ≠ black) := rfl

theorem selectKeys_append (P : BlockKey → Bool) (l1 l2 : List BlockKey) :
    selectKeys P (l1 ++ l2) = selectKeys P l1 ++ selectKeys P l2 := by
  induction l1 with
  | nil => rfl
  | cons k l ih => by_cases h : P k <;> simp [selectKeys, h, ih]

@[simp] theorem normal_eq_bold_false : (("normal" : String) = "bold") = False :=
  eq_false (by decide)

@[simp] theorem answerColor_eq_black_iff (a : String) :
    (answerColor a = black) ↔ False := by
  unfold answerColor
  split <;> simp [green, red, black]

@[simp] theorem matchedColor_eq_black_iff (r : ApiResponse) :
    (matchedColor r = black) ↔ False := by
  unfold matchedColor
  split <;> simp [green, red, black]

@[simp] theorem isBulletB_titleKey : isBulletB titleKey = false := by
  norm_num [isBulletB, titleKey]

@[simp] theorem isBulletB_matchedKey (r : ApiResponse) :
    isBulletB (matchedKey r) = false := by
  norm_num [isBulletB, matchedKey]

@[simp] theorem isBulletB_headerKey (h : String) :
    isBulletB (headerKey h) = false := by
  norm_num [isBulletB, headerKey]

@[simp] theorem isBulletB_summaryKey (split : SplitFun) (pW : ℚ) (r : ApiResponse) :
    isBulletB (summaryKey split pW r) = false := by
  norm_num [isBulletB, summaryKey]

@[simp] theorem isBulletB_bulletKey (split : SplitFun) (pW : ℚ) (s : String) :
    isBulletB (bulletKey split pW s) = true := by
  norm_num [isBulletB, bulletKey]

@[simp] theorem isBulletB_questionKey (split : SplitFun) (pW : ℚ)
    (p : Nat × QuestionAnswer) : isBulletB (questionKey split pW p) = false := by
  norm_num [isBulletB, questionKey]

@[simp] theorem isBulletB_answerKey (qa : QuestionAnswer) :
    isBulletB (answerKey qa) = false := by
  norm_num [isBulletB, answerKey]

@[simp] theorem isBulletB_reasonKey (split : SplitFun) (pW : ℚ)
    (qa : QuestionAnswer) : isBulletB (reasonKey split pW qa) = false := by
  norm_num [isBulletB, reasonKey]

@[simp] theorem isQuestionB_titleKey : isQuestionB titleKey = false := by
  norm_num [isQuestionB, titleKey]

@[simp] theorem isQuestionB_matchedKey (r : ApiResponse) :
    isQuestionB (matchedKey r) = false := by
  norm_num [isQuestionB, matchedKey]

@[simp] theorem isQuestionB_headerKey (h : String) :
    isQuestionB (headerKey h) = false := by
  norm_num [isQuestionB, headerKey]

@[simp] theorem isQuestionB_summaryKey (split : SplitFun) (pW : ℚ) (r : ApiResponse) :
    isQuestionB (summaryKey split pW r) = false := by
  norm_num [isQuestionB, summaryKey]

@[simp] theorem isQuestionB_bulletKey (split : SplitFun) (pW : ℚ) (s : String) :
    isQuestionB (bulletKey split pW s) = false := by
  norm_num [isQuestionB, bulletKey]

@[simp] theorem isQuestionB_questionKey (split : SplitFun) (pW : ℚ)
    (p : Nat × QuestionAnswer) : isQuestionB (questionKey split pW p) = true := by
  norm_num [isQuestionB, questionKey]

@[simp] theorem isQuestionB_answerKey (qa : QuestionAnswer) :
    isQuestionB (answerKey qa) = false := by
  norm_num [isQuestionB, answerKey]

@[simp] theorem isQuestionB_reasonKey (split : SplitFun) (pW : ℚ)
    (qa : QuestionAnswer) : isQuestionB (reasonKey split pW qa) = false := by
  norm_num [isQuestionB, reasonKey]

@[simp] theorem isAnswerB_titleKey : isAnswerB titleKey = false := by
  norm_num [isAnswerB, titleKey]

@[simp] theorem isAnswerB_matchedKey (r : ApiResponse) :
    isAnswerB (matchedKey r) = false := by
  norm_num [isAnswerB, matchedKey]

@[simp] theorem isAnswerB_headerKey (h : String) :
    isAnswerB (headerKey h) = false := by
  norm_num [isAnswerB, headerKey]

@[simp] theorem isAnswerB_summaryKey (split : SplitFun) (pW : ℚ) (r : ApiResponse) :
    isAnswerB (summaryKey split pW r) = false := by
  norm_num [isAnswerB, summaryKey]

@[simp] theorem isAnswerB_bulletKey (split : SplitFun) (pW : ℚ) (s : String) :
    isAnswerB (bulletKey split pW s) = false := by
  norm_num [isAnswerB, bulletKey]

@[simp] theorem isAnswerB_questionKey (split : SplitFun) (pW : ℚ)
    (p : Nat × QuestionAnswer) : isAnswerB (questionKey split pW p) = false := by
  norm_num [isAnswerB, questionKey]

@[simp] theorem isAnswerB_answerKey (qa : QuestionAnswer) :
    isAnswerB (answerKey qa) = true := by
  norm_num [isAnswerB, answerKey]

@[simp] theorem isAnswerB_reasonKey (split : SplitFun) (pW : ℚ)
    (qa : QuestionAnswer) : isAnswerB (reasonKey split pW qa) = false := by
  norm_num [isAnswerB, reasonKey]

@[simp] theorem isColoredB_titleKey : isColoredB titleKey = false := by
  norm_num [isColoredB, titleKey]

@[simp] theorem isColoredB_matchedKey (r : ApiResponse) :
    isColoredB (matchedKey r) = true := by
  norm_num [isColoredB, matchedKey]

@[simp] theorem isColoredB_headerKey (h : String) :
    isColoredB (headerKey h) = false := by
  norm_num [isColoredB, headerKey]

@[simp] theorem isColoredB_summaryKey (split : SplitFun) (pW : ℚ) (r : ApiResponse) :
    isColoredB (summaryKey split pW r) = false := by
  norm_num [isColoredB, summaryKey]

@[simp] theorem isColoredB_bulletKey (split : SplitFun) (pW : ℚ) (s : String) :
    isColoredB (bulletKey split pW s) = false := by
  norm_num [isColoredB, bulletKey]

@[simp] theorem isColoredB_questionKey (split : SplitFun) (pW : ℚ)
    (p : Nat × QuestionAnswer) : isColoredB (questionKey split pW p) = false := by
  norm_num [isColoredB, questionKey]

@[simp] theorem isColoredB_answerKey (qa : QuestionAnswer) :
    isColoredB (answerKey qa) = true := by
  norm_num [isColoredB, answerKey]

@[simp] theorem isColoredB_reasonKey (split : SplitFun) (pW : ℚ)
    (qa : QuestionAnswer) : isColoredB (reasonKey split pW qa) = false := by
  norm_num [isColoredB, reasonKey]

theorem selectKeys_map_self {α : Type} (P : BlockKey → Bool) (f : α → BlockKey)
    (h : ∀ a, P (f a) = true) (l : List α) :
    selectKeys P (l.map f) = l.map f := by
  induction l with
  | nil => rfl
  | cons a l ih => simp [selectKeys, h, ih]

theorem selectKeys_map_none {α : Type} (P : BlockKey → Bool) (f : α → BlockKey)
    (h : ∀ a, P (f a) = false) (l : List α) :
    selectKeys P (l.map f) = [] := by
  induction l with
  | nil => rfl
  | cons a l ih => simp [selectKeys, h, ih]

theorem selectKeys_flat_map {α : Type} (P : BlockKey → Bool)
    (g res : α → List BlockKey) (h : ∀ a, selectKeys P (g a) = res a)
    (l : List α) :
    selectKeys P ((l.map g).flatten) = (l.map res).flatten := by
  induction l with
  | nil => rfl
  | cons a l ih => simp [selectKeys_append, h, ih]

theorem flatten_singletons {α β : Type} (f : α → β) (l : List α) :
    (l.map (fun a => [f a])).flatten = l.map f := by
  induction l with
  | nil => rfl
  | cons a l ih => simp [ih]

theorem selectKeys_scoreKeys_isBulletB (numToStr : NumFun) (r : ApiResponse) :
    selectKeys isBulletB (scoreKeys numToStr r) = [] := by
  norm_num [selectKeys, scoreKeys, isBulletB]

theorem selectKeys_scoreKeys_isQuestionB (numToStr : NumFun) (r : ApiResponse) :
    selectKeys isQuestionB (scoreKeys numToStr r) = [] := by
  norm_num [selectKeys, scoreKeys, isQuestionB]

theorem selectKeys_scoreKeys_isAnswerB (numToStr : NumFun) (r : ApiResponse) :
    selectKeys isAnswerB (scoreKeys numToStr r) = [] := by
  norm_num [selectKeys, scoreKeys, isAnswerB]

theorem selectKeys_scoreKeys_isColoredB (numToStr : NumFun) (r : ApiResponse) :
    selectKeys isColoredB (scoreKeys numToStr r) = [] := by
  norm_num [selectKeys, scoreKeys, isColoredB]

theorem selectKeys_qaKeys_isBulletB (split : SplitFun) (pW : ℚ)
    (p : Nat × QuestionAnswer) :
    selectKeys isBulletB (qaKeys split pW p) = [] := by
  simp [selectKeys, qaKeys]

theorem selectKeys_qaKeys_isQuestionB (split : SplitFun) (pW : ℚ)
    (p : Nat × QuestionAnswer) :
    selectKeys isQuestionB (qaKeys split pW p) = [questionKey split pW p] := by
  simp [selectKeys, qaKeys]

theorem selectKeys_qaKeys_isAnswerB (split : SplitFun) (pW : ℚ)
    (p : Nat × QuestionAnswer) :
    selectKeys isAnswerB (qaKeys split pW p) = [answerKey p.2] := by
  simp [selectKeys, qaKeys]

theorem selectKeys_qaKeys_isColoredB (split : SplitFun) (pW : ℚ)
    (p : Nat × QuestionAnswer) :
    selectKeys isColoredB (qaKeys split pW p) = [answerKey p.2] := by
  simp [selectKeys, qaKeys]

theorem enum_map_comp_snd {α β : Type} (f : α → β) (l : List α) :
    l.enum.map (fun p => f p.2) = l.map f := by
  have h : (fun p : Nat × α => f p.2) = f ∘ Prod.snd := rfl
  rw [h, ← List.map_map, List.enum_map_snd]

/-- C5: the content pass lays the sections out in the fixed order
title, matched badge, score breakdown (overall, years, impact,
skills), summary, strengths, weaknesses, suggested roles, skill gaps,
question/answer section — the emitted blocks are exactly this
concatenation. -/
theorem sections_fixed_order (split : SplitFun) (numToStr : NumFun)
    (pW pH : ℚ) (r : ApiResponse) :
    emittedKeys (contentPass split numToStr pW pH r) =
      [titleKey, matchedKey r, headerKey "📊 Score Breakdown"] ++
      scoreKeys numToStr r ++
      [headerKey "👤 Summary", summaryKey split pW r] ++
      (headerKey "📈 Strengths" :: r.strengths.map (bulletKey split pW)) ++
      (headerKey "⚠️ Areas for Improvement" :: r.weaknesses.map (bulletKey split pW)) ++
      (headerKey "💼 Suggested Roles" :: r.suggested_roles.map (bulletKey split pW)) ++
      (headerKey "🎯 Skill Gaps & Development Areas" :: r.skill_gaps.map (bulletKey split pW)) ++
      qaTraceKeys split pW r.questions_answers :=
  contentPass_trace split numToStr pW pH r

/-- C3: every item of every list field appears exactly once, in input
order: the bullet-shaped blocks of the content pass are exactly the
four bullet lists concatenated in input order (one block per item),
and the bold question lines are exactly the indexed question entries
in input order. -/
theorem list_completeness (split : SplitFun) (numToStr : NumFun)
    (pW pH : ℚ) (r : ApiResponse) :
    selectKeys isBulletB (emittedKeys (contentPass split numToStr pW pH r)) =
      (r.strengths ++ r.weaknesses ++ r.suggested_roles ++ r.skill_gaps).map
        (bulletKey split pW) ∧
    selectKeys isQuestionB (emittedKeys (contentPass split numToStr pW pH r)) =
      r.questions_answers.enum.map (questionKey split pW) := by
  rw [contentPass_trace]
  unfold traceKeys qaTraceKeys
  constructor
  · by_cases hq : r.questions_answers.length > 0
    · norm_num [hq, selectKeys_append, selectKeys,
        selectKeys_scoreKeys_isBulletB,
        selectKeys_map_self isBulletB (bulletKey split pW) (by simp),
        selectKeys_flat_map isBulletB (qaKeys split pW) (fun _ => [])
          (selectKeys_qaKeys_isBulletB split pW)]
    · norm_num [hq, selectKeys_append, selectKeys,
        selectKeys_scoreKeys_isBulletB,
        selectKeys_map_self isBulletB (bulletKey split pW) (by simp)]
  · by_cases hq : r.questions_answers.length > 0
    · rw [← flatten_singletons (questionKey split pW) r.questions_answers.enum]
      norm_num [hq, selectKeys_append, selectKeys,
        selectKeys_scoreKeys_isQuestionB,
        selectKeys_map_none isQuestionB (bulletKey split pW) (by simp),
        selectKeys_flat_map isQuestionB (qaKeys split pW)
          (fun p => [questionKey split pW p])
          (selectKeys_qaKeys_isQuestionB split pW)]
    · have h0 : r.questions_answers = [] :=
        List.length_eq_zero.mp (by omega)
      norm_num [hq, h0, selectKeys_append, selectKeys,
        selectKeys_scoreKeys_isQuestionB,
        selectKeys_map_none isQuestionB (bulletKey split pW) (by simp)]

/-- C7: the affirmative glyph and colour are selected exactly when the
answer equals "yes" case-insensitively (lower-casing both sides);
every other answer — including the mixed-case "No" — selects the
negative glyph and colour, and every answer string selects one of the
two glyphs (no failure case). -/
theorem answer_yes_case_insensitive (a : String) :
    ((answerSymbol a = "✓" ∧ answerColor a = green) ↔
      lowerString a = lowerString "yes") ∧
    ((answerSymbol a = "✗" ∧ answerColor a = red) ↔
      ¬ lowerString a = lowerString "yes") ∧
    (answerSymbol a = "✓" ∨ answerSymbol a = "✗") ∧
    (answerSymbol "No" = "✗" ∧ answerColor "No" = red) := by
  have hyes : lowerString "yes" = "yes" := by decide
  have h1 : (("✓" : String) = "✗") = False := eq_false (by decide)
  have h2 : (("✗" : String) = "✓") = False := eq_false (by decide)
  have h3 : (green = red) = False := eq_false (by decide)
  have h4 : (red = green) = False := eq_false (by decide)
  rw [hyes]
  refine ⟨?_, ?_, ?_, by decide⟩
  · by_cases h : lowerString a = "yes" <;>
      simp [answerSymbol, answerColor, h, h1, h2, h3, h4]
  · by_cases h : lowerString a = "yes" <;>
      simp [answerSymbol, answerColor, h, h1, h2, h3, h4]
  · by_cases h : lowerString a = "yes" <;> simp [answerSymbol, h]

/-- C10: the rendered status lines of the content pass are exactly, in
order, one block per question/answer entry whose text is the selected
glyph, a space, and the answer string upper-cased; in particular the
mixed-case answer "No" yields the text "✗ NO". -/
theorem answer_status_lines (split : SplitFun) (numToStr : NumFun)
    (pW pH : ℚ) (r : ApiResponse) :
    selectKeys isAnswerB (emittedKeys (contentPass split numToStr pW pH r)) =
      r.questions_answers.map answerKey ∧
    answerKey ⟨"q", "No", "why"⟩ = ⟨["✗ NO"], 20, 11, "normal", red⟩ := by
  constructor
  · rw [contentPass_trace]
    unfold traceKeys qaTraceKeys
    by_cases hq : r.questions_answers.length > 0
    · rw [← enum_map_comp_snd answerKey r.questions_answers,
        ← flatten_singletons (fun p : Nat × QuestionAnswer => answerKey p.2)
          r.questions_answers.enum]
      norm_num [hq, selectKeys_append, selectKeys,
        selectKeys_scoreKeys_isAnswerB,
        selectKeys_map_none isAnswerB (bulletKey split pW) (by simp),
        selectKeys_flat_map isAnswerB (qaKeys split pW)
          (fun p => [answerKey p.2])
          (selectKeys_qaKeys_isAnswerB split pW)]
    · have h0 : r.questions_answers = [] :=
        List.length_eq_zero.mp (by omega)
      norm_num [hq, h0, selectKeys_append, selectKeys,
        selectKeys_scoreKeys_isAnswerB,
        selectKeys_map_none isAnswerB (bulletKey split pW) (by simp)]
  · have hsym : answerSymbol "No" = "✗" := by decide
    have hup : upperString "No" = "NO" := by decide
    have hcol : answerColor "No" = red := by decide
    have hcat : ("✗" : String) ++ " " ++ "NO" = "✗ NO" := by decide
    simp [answerKey, hsym, hup, hcol, hcat]

theorem bulletKey_mem_trace (split : SplitFun) (numToStr : NumFun) (pW : ℚ)
    (r : ApiResponse) (s : String)
    (hs : s ∈ r.strengths ++ r.weaknesses ++ r.suggested_roles ++ r.skill_gaps) :
    bulletKey split pW s ∈ traceKeys split numToStr pW r := by
  unfold traceKeys
  rcases List.mem_append.mp hs with h123 | h4
  · rcases List.mem_append.mp h123 with h12 | h3
    · rcases List.mem_append.mp h12 with h1 | h2
      · exact List.mem_append_left _ (List.mem_append_left _ (List.mem_append_left _
          (List.mem_append_left _ (List.mem_append_right _
            (List.mem_cons_of_mem _ (List.mem_map_of_mem _ h1))))))
      · exact List.mem_append_left _ (List.mem_append_left _ (List.mem_append_left _
          (List.mem_append_right _
            (List.mem_cons_of_mem _ (List.mem_map_of_mem _ h2)))))
    · exact List.mem_append_left _ (List.mem_append_left _ (List.mem_append_right _
        (List.mem_cons_of_mem _ (List.mem_map_of_mem _ h3))))
  · exact List.mem_append_left _ (List.mem_append_right _
      (List.mem_cons_of_mem _ (List.mem_map_of_mem _ h4)))

theorem qaKey_mem_trace (split : SplitFun) (numToStr : NumFun) (pW : ℚ)
    (r : ApiResponse) (p : Nat × QuestionAnswer)
    (hp : p ∈ r.questions_answers.enum) (k : BlockKey)
    (hk : k ∈ qaKeys split pW p) :
    k ∈ traceKeys split numToStr pW r := by
  have hq : r.questions_answers.length > 0 := by
    cases hqa : r.questions_answers with
    | nil => rw [hqa] at hp; simp at hp
    | cons a l => simp [hqa]
  unfold traceKeys qaTraceKeys
  rw [if_pos hq]
  have hin : k ∈ (r.questions_answers.enum.map (qaKeys split pW)).flatten :=
    List.mem_flatten.mpr ⟨qaKeys split pW p, List.mem_map_of_mem _ hp, hk⟩
  exact List.mem_append_right _ (List.mem_cons_of_mem _ hin)

/-- C2: no list entry is ever split across a page boundary or partly
dropped: every strength/weakness/role/gap entry has its complete
wrapped line list in a single block on a single page of the finished
document, and every question/answer entry likewise has its complete
question, status and reason runs each whole on a single page. -/
theorem entry_never_split (split : SplitFun) (numToStr : NumFun) (date : String)
    (pW pH : ℚ) (r : ApiResponse) :
    (∀ s, s ∈ r.strengths ++ r.weaknesses ++ r.suggested_roles ++ r.skill_gaps →
      hasBlockLines (renderDoc split numToStr date pW pH r)
        (split 11 ("• " ++ s) (pW - 50))) ∧
    (∀ p : Nat × QuestionAnswer, p ∈ r.questions_answers.enum →
      hasBlockLines (renderDoc split numToStr date pW pH r)
        (split 12 ("Q" ++ toString (p.1 + 1) ++ ": " ++ p.2.question) (pW - 40)) ∧
      hasBlockLines (renderDoc split numToStr date pW pH r)
        [answerSymbol p.2.answer ++ " " ++ upperString p.2.answer] ∧
      hasBlockLines (renderDoc split numToStr date pW pH r)
        (split 11 ("Reason: " ++ p.2.reason) (pW - 40))) := by
  constructor
  · intro s hs
    exact hasBlockLines_renderDoc split numToStr date pW pH r _
      (bulletKey_mem_trace split numToStr pW r s hs)
  · intro p hp
    refine ⟨?_, ?_, ?_⟩
    · exact hasBlockLines_renderDoc split numToStr date pW pH r _
        (qaKey_mem_trace split numToStr pW r p hp (questionKey split pW p)
          (by simp [qaKeys]))
    · exact hasBlockLines_renderDoc split numToStr date pW pH r _
        (qaKey_mem_trace split numToStr pW r p hp (answerKey p.2)
          (by simp [qaKeys]))
    · exact hasBlockLines_renderDoc split numToStr date pW pH r _
        (qaKey_mem_trace split numToStr pW r p hp (reasonKey split pW p.2)
          (by simp [qaKeys]))

/-- Witness for C2: a concrete strength entry of the sample report is
rendered whole on a single page. -/
theorem entry_never_split_witness :
    hasBlockLines (renderDoc wSplit wNum "2026-10-11" 210 297 wReport)
      (wSplit 11 ("• " ++ "Strong full-stack expertise") (210 - 50)) :=
  (entry_never_split wSplit wNum "2026-10-11" 210 297 wReport).1
    "Strong full-stack expertise" (by decide)

/-- C8: the affirmative/negative colour never leaks: the only
non-black blocks of the whole content pass are the matched badge and
the per-entry status lines, and right after each status line comes
that entry's reason block, drawn in the default black. -/
theorem color_scoped (split : SplitFun) (numToStr : NumFun)
    (pW pH : ℚ) (r : ApiResponse) :
    selectKeys isColoredB (emittedKeys (contentPass split numToStr pW pH r)) =
      matchedKey r :: r.questions_answers.map answerKey ∧
    (∀ p : Nat × QuestionAnswer, p ∈ r.questions_answers.enum →
      ∃ pre post,
        emittedKeys (contentPass split numToStr pW pH r) =
          pre ++ answerKey p.2 :: reasonKey split pW p.2 :: post ∧
        (reasonKey split pW p.2).color = black ∧
        (answerKey p.2).color = answerColor p.2.answer) := by
  constructor
  · rw [contentPass_trace]
    unfold traceKeys qaTraceKeys
    by_cases hq : r.questions_answers.length > 0
    · rw [← enum_map_comp_snd answerKey r.questions_answers,
        ← flatten_singletons (fun p : Nat × QuestionAnswer => answerKey p.2)
          r.questions_answers.enum]
      norm_num [hq, selectKeys_append, selectKeys,
        selectKeys_scoreKeys_isColoredB,
        selectKeys_map_none isColoredB (bulletKey split pW) (by simp),
        selectKeys_flat_map isColoredB (qaKeys split pW)
          (fun p => [answerKey p.2])
          (selectKeys_qaKeys_isColoredB split pW)]
    · have h0 : r.questions_answers = [] :=
        List.length_eq_zero.mp (by omega)
      norm_num [hq, h0, selectKeys_append, selectKeys,
        selectKeys_scoreKeys_isColoredB,
        selectKeys_map_none isColoredB (bulletKey split pW) (by simp)]
  · intro p hp
    have hq : r.questions_answers.length > 0 := by
      cases hqa : r.questions_answers with
      | nil => rw [hqa] at hp; simp at hp
      | cons a l => simp [hqa]
    obtain ⟨s, t, hst⟩ := List.append_of_mem hp
    refine ⟨[titleKey, matchedKey r, headerKey "📊 Score Breakdown"] ++
        scoreKeys numToStr r ++
        [headerKey "👤 Summary", summaryKey split pW r] ++
        (headerKey "📈 Strengths" :: r.strengths.map (bulletKey split pW)) ++
        (headerKey "⚠️ Areas for Improvement" :: r.weaknesses.map (bulletKey split pW)) ++
        (headerKey "💼 Suggested Roles" :: r.suggested_roles.map (bulletKey split pW)) ++
        (headerKey "🎯 Skill Gaps & Development Areas" :: r.skill_gaps.map (bulletKey split pW)) ++
        (headerKey "🧠 Detailed Analysis" :: (s.map (qaKeys split pW)).flatten) ++
        [questionKey split pW p],
      (t.map (qaKeys split pW)).flatten, ?_, rfl, rfl⟩
    rw [contentPass_trace]
    unfold traceKeys qaTraceKeys
    rw [if_pos hq, hst]
    simp [qaKeys, List.append_assoc]

/-- Witness for C8: in the sample report the status line of the first
question/answer entry is immediately followed by its reason block in
default black. -/
theorem color_scoped_witness :
    ∃ pre post,
      emittedKeys (contentPass wSplit wNum 210 297 wReport) =
        pre ++ answerKey wQA1 :: reasonKey wSplit 210 wQA1 :: post ∧
      (reasonKey wSplit 210 wQA1).color = black ∧
      (answerKey wQA1).color = answerColor wQA1.answer :=
  (color_scoped wSplit wNum 210 297 wReport).2 (0, wQA1) (by decide)

end ResumeAnalyzer
